import Mathlib

/-!
Shallow embedding of `minecraft_mods_report_to_excel.py`.

The script reads an ATLauncher `instance.json`, flattens each mod entry into a
row record (`build_rows`), and renders the records into a spreadsheet
(`write_excel`).  Python strings are modelled by Lean `String` with the few
string primitives the script needs re-implemented over `String.data`
(a `List Char`), so that every definition evaluates inside the kernel.

Library collaborators that are outside the repository are made explicit
parameters:
* `datetime.fromisoformat` becomes a parameter `fromiso : String → Option PyDatetime`
  (`none` models a raised `ValueError`);
* the local time zone used by `datetime.astimezone` becomes an offset
  parameter `loc : Int`;
* the iteration order Python presents for a `set` of strings becomes an
  explicit enumeration list, constrained to be a permutation of the set's
  elements.
-/

namespace ModsReport

/-- Python `s.endswith(t)` on strings, decided on the character data. -/
def pyEndsWith (s t : String) : Bool :=
  t.data.reverse.isPrefixOf s.data.reverse

/-- Python `s[:-1]`: every character but the last. -/
def pyDropLast (s : String) : String :=
  ⟨s.data.dropLast⟩

/-- Python `s.lower()` (ASCII case folding, as used by `key=str.lower`). -/
def pyLower (s : String) : String :=
  ⟨s.data.map Char.toLower⟩

/-- Python truthiness of an optional string: `None` and `""` are falsy. -/
def pyStrTruthy : Option String → Bool
  | none => false
  | some s => if s = "" then false else true

/-- Python `a or b` where `a` is an optional string and `b` a string default:
the first truthy operand, else `b`. -/
def pyOrStr (a : Option String) (b : String) : String :=
  match a with
  | some s => if s = "" then b else s
  | none => b

/-- Lexicographic `≤` on character data by code point, Python's comparison of
`str` values. -/
def charDataLe : List Char → List Char → Bool
  | [], _ => true
  | _ :: _, [] => false
  | a :: as, b :: bs =>
    if a.toNat < b.toNat then true
    else if b.toNat < a.toNat then false
    else charDataLe as bs

/-- The comparison `str.lower`-keyed `sorted` uses: `a.lower() <= b.lower()`. -/
def keyLe (a b : String) : Prop :=
  charDataLe (pyLower a).data (pyLower b).data = true

instance : DecidableRel keyLe := fun a b =>
  inferInstanceAs (Decidable (_ = true))

/-- Python `sorted(xs, key=str.lower)`: a stable sort by the case-folded key.
`List.insertionSort` is stable, hence a faithful model of `sorted`. -/
def pySorted (xs : List String) : List String :=
  List.insertionSort keyLe xs

/-- Model of a Python `datetime` value: `clock` is the naive wall-clock
reading on a linear scale, `tz` the attached UTC offset when the value is
time-zone aware (`none` = naive). -/
structure PyDatetime where
  clock : Int
  tz : Option Int
deriving DecidableEq, Repr

/-- A cell payload: the script writes either a string or a `datetime`. -/
inductive CellValue where
  | str : String → CellValue
  | dt : PyDatetime → CellValue
deriving DecidableEq, Repr

/-- Whether a payload is a `datetime` (Python `isinstance(value, datetime)`). -/
def CellValue.isDt : CellValue → Bool
  | .dt _ => true
  | .str _ => false

/-- The Modrinth enrichment object optionally nested in a mod entry.
`truthy` records Python's truthiness of the underlying dict: an empty dict is
falsy even though each of its lookups is also `none`, and a non-empty dict
missing all of these keys is truthy, so `truthy` is independent information. -/
structure Project where
  truthy : Bool
  title : Option String
  description : Option String
  body : Option String
  categories : Option (List (Option String))
  slug : Option String
  id : Option String
  updated : Option String
deriving DecidableEq, Repr

/-- One element of the `launcher.mods` array. -/
structure Mod where
  name : Option String
  file : Option String
  modrinthProject : Option Project
deriving DecidableEq, Repr

/-- The `normalized` expression of `iso_to_datetime`: a trailing literal `"Z"`
is replaced by the explicit UTC offset `"+00:00"` before parsing. -/
def zNormalize (v : String) : String :=
  if pyEndsWith v "Z" then pyDropLast v ++ "+00:00" else v

/-- Function `iso_to_datetime` from the script.  `fromiso` models
`datetime.fromisoformat` (`none` = `ValueError`, which the `except` clause
turns into `None`); `loc` is the local zone offset used by `astimezone`, after
which `.replace(tzinfo=None)` drops the zone designator. -/
def iso_to_datetime (fromiso : String → Option PyDatetime) (loc : Int) :
    Option String → Option PyDatetime
  | none => none
  | some v =>
    if v = "" then none
    else
      match fromiso (zNormalize v) with
      | none => none
      | some parsed =>
        match parsed.tz with
        | some off => some ⟨parsed.clock - off + loc, none⟩
        | none => some parsed

/-- Function `modrinth_link` from the script: `slug or id`, and `None` when that chain
is falsy, else the catalog URL. -/
def modrinth_link (project : Project) : Option String :=
  let slug := if pyStrTruthy project.slug then project.slug else project.id
  match slug with
  | some s => if s = "" then none else some ("https://modrinth.com/mod/" ++ s)
  | none => none

/-- Function `mod_display_name` from the script: `title or name or file or ""` when the
project is truthy, else `name or file or ""`. -/
def mod_display_name (mod : Mod) (project : Option Project) : String :=
  match project with
  | some p =>
    if p.truthy then pyOrStr p.title (pyOrStr mod.name (pyOrStr mod.file ""))
    else pyOrStr mod.name (pyOrStr mod.file "")
  | none => pyOrStr mod.name (pyOrStr mod.file "")

/-- The list comprehension `[c for c in category_list if c]`: the tags that
survive Python truthiness (drop `null` and `""`). -/
def truthyTags : List (Option String) → List String :=
  List.filterMap fun c =>
    match c with
    | some s => if s = "" then none else some s
    | none => none

/-- The `updated_value` computed in `build_rows`: the parsed datetime when
parsing succeeded, else `updated_raw or ""`. -/
def pyUpdatedValue (fromiso : String → Option PyDatetime) (loc : Int)
    (raw : Option String) : CellValue :=
  match iso_to_datetime fromiso loc raw with
  | some d => .dt d
  | none => .str (pyOrStr raw "")

/-- The flat record appended to `rows` for one mod (the Python dict literal of
`build_rows`, field names kept up to spelling). -/
structure Row where
  modName : String
  description : String
  detail : String
  category : String
  links : String
  linksUrl : Option String
  fileName : String
  updatedAt : CellValue
deriving DecidableEq, Repr

/-- The loop body of `build_rows` producing the record of one mod. -/
def build_row (fromiso : String → Option PyDatetime) (loc : Int) (mod : Mod) :
    Row :=
  let project := mod.modrinthProject
  let enriched :=
    match project with
    | some p => if p.truthy then some p else none
    | none => none
  match enriched with
  | some p =>
    let category_list := p.categories.getD []
    let link_url := modrinth_link p
    { modName := mod_display_name mod project
      description := pyOrStr p.description ""
      detail := pyOrStr p.body ""
      category := String.intercalate ";" (truthyTags category_list)
      links := if pyStrTruthy link_url then "Modrinth" else ""
      linksUrl := link_url
      fileName := pyOrStr mod.file ""
      updatedAt := pyUpdatedValue fromiso loc p.updated }
  | none =>
    { modName := mod_display_name mod project
      description := "No Modrinth source available (untrusted source)"
      detail := ""
      category := ""
      links := "No Modrinth"
      linksUrl := none
      fileName := pyOrStr mod.file ""
      updatedAt := pyUpdatedValue fromiso loc none }

/-- The category tags of one mod that reach `categories.add` (enriched and
truthy tags only). -/
def mod_categories (mod : Mod) : List String :=
  match mod.modrinthProject with
  | some p =>
    if p.truthy then truthyTags (p.categories.getD []) else []
  | none => []

/-- Operation `categories.add(cat)` on a Python set, with the set represented by its
list of distinct elements in insertion order. -/
def addCat (cats : List String) (c : String) : List String :=
  if c ∈ cats then cats else cats ++ [c]

/-- The loop of `build_rows`, threading the accumulated category set. -/
def build_rows_loop (fromiso : String → Option PyDatetime) (loc : Int) :
    List Mod → List String → List Row × List String
  | [], cats => ([], cats)
  | mod :: rest, cats =>
    let row := build_row fromiso loc mod
    let cats1 := (mod_categories mod).foldl addCat cats
    let (rows, cats2) := build_rows_loop fromiso loc rest cats1
    (row :: rows, cats2)

/-- Function `build_rows` from the script: one record per mod plus the category set
(`mods_dir` is accepted and unused, as in the source). -/
def build_rows (fromiso : String → Option PyDatetime) (loc : Int)
    (mods : List Mod) (mods_dir : String) : List Row × List String :=
  build_rows_loop fromiso loc mods []

/-- The fixed header list of the script. -/
def HEADERS : List String :=
  ["Mod Name", "Description", "Detail", "Category", "Links", "File Name",
   "Updated At"]

/-- Column where the unique categories list is placed (K). -/
def CATEGORIES_COL_INDEX : Nat := 11

/-- Fixed height given to every data row. -/
def DATA_ROW_HEIGHT : Nat := 15

/-- The fixed data-column widths of the script. -/
def widths : List Nat := [30, 50, 60, 30, 15, 40, 20]

/-- The columns receiving wrapped, top-aligned text. -/
def wrap_columns : List String := ["Description", "Detail", "Category"]

/-- Model of openpyxl's `get_column_letter`, adequate for the single-letter
columns the script uses (7 and 11). -/
def get_column_letter (n : Nat) : String :=
  ⟨[Char.ofNat (64 + n)]⟩

/-- Lookup `row.get(header, "")` on the record dict of `build_rows`. -/
def rowValue (row : Row) (header : String) : CellValue :=
  if header = "Mod Name" then .str row.modName
  else if header = "Description" then .str row.description
  else if header = "Detail" then .str row.detail
  else if header = "Category" then .str row.category
  else if header = "Links" then .str row.links
  else if header = "File Name" then .str row.fileName
  else if header = "Updated At" then row.updatedAt
  else .str ""

/-- One written worksheet cell together with the decorations the script may
attach to it. -/
structure Cell where
  row : Nat
  col : Nat
  value : CellValue
  hyperlink : Option String
  style : Option String
  numberFormat : Option String
  wrapTop : Bool
deriving DecidableEq, Repr

/-- A bare value-only cell write. -/
def plainCell (rowIdx colIdx : Nat) (value : CellValue) : Cell :=
  { row := rowIdx, col := colIdx, value := value, hyperlink := none,
    style := none, numberFormat := none, wrapTop := false }

/-- The cell written for one header of one data row, with the hyperlink,
number-format and alignment decorations of the inner loop of `write_excel`. -/
def dataCell (row : Row) (rowIdx colIdx : Nat) (header : String) : Cell :=
  let value := rowValue row header
  { row := rowIdx
    col := colIdx
    value := value
    hyperlink :=
      if header = "Links" ∧ pyStrTruthy row.linksUrl = true then row.linksUrl
      else none
    style :=
      if header = "Links" ∧ pyStrTruthy row.linksUrl = true then
        some "Hyperlink"
      else none
    numberFormat :=
      if header = "Updated At" ∧ value.isDt = true then
        some "yyyy-mm-dd hh:mm:ss"
      else none
    wrapTop := decide (header ∈ wrap_columns) }

/-- The seven cells written for one data row, in header order
(`enumerate(HEADERS, start=1)`). -/
def dataRowCells (row : Row) (rowIdx : Nat) : List Cell :=
  (List.enumFrom 1 HEADERS).map fun p => dataCell row rowIdx p.1 p.2

/-- The header-row cells (`enumerate(HEADERS, start=1)` at row 1). -/
def headerCells : List Cell :=
  (List.enumFrom 1 HEADERS).map fun p => plainCell 1 p.1 (.str p.2)

/-- Everything `write_excel` writes into the workbook, region by region. -/
structure Sheet where
  title : String
  freeze_panes : String
  headerRow : List Cell
  dataRows : List (List Cell)
  rowHeights : List (Nat × Nat)
  tableRef : Option String
  tableStyle : Option String
  colWidths : List (Nat × Nat)
  catHeader : Cell
  catCells : List Cell
deriving DecidableEq, Repr

/-- Function `write_excel` from the script.  `catsEnum` is the order in which Python's
`set` iteration presents the category set to `sorted` (an arbitrary
permutation of the set's elements); in the source `sheet_name` defaults to
`"Mods"`. -/
def write_excel (rows : List Row) (catsEnum : List String)
    (sheet_name : String) : Sheet :=
  { title := sheet_name
    freeze_panes := "A2"
    headerRow := headerCells
    dataRows := (List.enumFrom 2 rows).map fun p => dataRowCells p.2 p.1
    rowHeights := (List.enumFrom 2 rows).map fun p => (p.1, DATA_ROW_HEIGHT)
    tableRef :=
      if rows = [] then none
      else
        some ("A1:" ++ get_column_letter HEADERS.length ++
          toString (1 + rows.length))
    tableStyle := if rows = [] then none else some "TableStyleMedium9"
    colWidths :=
      (List.enumFrom 1 widths).map (fun p => (p.1, p.2)) ++
        [(CATEGORIES_COL_INDEX, 25)]
    catHeader := plainCell 1 CATEGORIES_COL_INDEX (.str "Categorias")
    catCells := (List.enumFrom 2 (pySorted catsEnum)).map fun p =>
      plainCell p.1 CATEGORIES_COL_INDEX (.str p.2) }

/-- The `launcher` object of the instance descriptor. -/
structure Launcher where
  mods : Option (List Mod)
  version : Option String
deriving Repr

/-- The root parsed JSON document. -/
structure InstanceDesc where
  launcher : Option Launcher
deriving Repr

/-- The ambient file system state `main` consults: whether the input path is
a file, what `json.load` yields on it (`none` = parse error raised), and the
directory of the input path (`os.path.dirname`). -/
structure Env where
  isFile : Bool
  parsed : Option InstanceDesc
  instanceDir : String
deriving Repr

/-- What one run of `main` produces: the returned exit status, the console
lines printed, and the output file written, if any.  (`raise SystemExit`
turns the returned status into the process exit code.) -/
structure MainResult where
  exitCode : Nat
  console : List String
  written : Option (String × Sheet)
deriving Repr

/-- Function `main` from the script.  Uncaught exceptions (malformed JSON) are
modelled by `Except.error`; `wb.save` is modelled as succeeding. -/
def main (instance_path : String) (env : Env)
    (fromiso : String → Option PyDatetime) (loc : Int)
    (enum : List String → List String) : Except String MainResult :=
  if env.isFile = false then
    .ok { exitCode := 1
          console := ["File not found: " ++ instance_path]
          written := none }
  else
    match env.parsed with
    | none => .error "json.load raised: malformed JSON"
    | some inst =>
      let launcher := inst.launcher.getD { mods := none, version := none }
      let mods := launcher.mods.getD []
      let instance_dir := env.instanceDir
      let mods_dir := instance_dir ++ "/mods"
      let version := pyOrStr launcher.version "Unknown"
      let output_path := instance_dir ++ "/" ++ ("Mods " ++ version ++ ".xlsx")
      let rc := build_rows fromiso loc mods mods_dir
      let sheet := write_excel rc.1 (enum rc.2) "Mods"
      .ok { exitCode := 0
            console := ["Excel report generated: " ++ output_path]
            written := some (output_path, sheet) }

/-- The strict companion of `keyLe`: smaller key and distinct keys. -/
def keyLt (a b : String) : Prop :=
  keyLe a b ∧ pyLower a ≠ pyLower b

/-- A `fromisoformat` stand-in that fails on every input. -/
def noParse : String → Option PyDatetime := fun _ => none

/-- A concrete one-mod input whose category set holds the two tags `"A"` and
`"a"`, distinct strings with the same case-folded key. -/
def sameKeyMods : List Mod :=
  [{ name := some "m", file := some "m.jar",
     modrinthProject := some
       { truthy := true, title := none, description := none, body := none,
         categories := some [some "A", some "a"], slug := some "x",
         id := none, updated := none } }]

/-- A concrete one-mod input with the two case-distinct tags `"a"` and `"b"`. -/
def twoTagMods : List Mod :=
  [{ name := some "m", file := some "m.jar",
     modrinthProject := some
       { truthy := true, title := none, description := none, body := none,
         categories := some [some "b", some "a"], slug := some "x",
         id := none, updated := none } }]

/-- A `fromisoformat` stand-in succeeding on exactly one input, with an
attached UTC offset. -/
def isoStub : String → Option PyDatetime := fun s =>
  if s = "2024-03-01T10:00:00+00:00" then some ⟨100, some 0⟩ else none

/-- An environment in which the input file exists but holds malformed JSON. -/
def badJsonEnv : Env :=
  { isFile := true, parsed := none, instanceDir := "d" }

/-- An environment in which the input path is not a file. -/
def missingEnv : Env :=
  { isFile := false, parsed := none, instanceDir := "d" }

/-- An environment with an existing, well-formed but minimal input file. -/
def okEnv : Env :=
  { isFile := true, parsed := some { launcher := none }, instanceDir := "d" }

/-- A concrete mod entry with no `modrinthProject` field. -/
def plainMod : Mod :=
  { name := some "n", file := some "f", modrinthProject := none }

/-- A concrete mod entry whose `modrinthProject` is an empty (falsy) object. -/
def emptyProjMod : Mod :=
  { name := some "n", file := some "f",
    modrinthProject := some
      { truthy := false, title := none, description := none, body := none,
        categories := none, slug := none, id := none, updated := none } }

/- ------------------------------------------------------------------ -/
/- Lemmas about the string helpers.                                    -/
/- ------------------------------------------------------------------ -/

theorem pyEndsWith_append_Z (s : String) : pyEndsWith (s ++ "Z") "Z" = true := by
  simp [pyEndsWith, String.data_append, List.isPrefixOf]

theorem pyEndsWith_append_offset (s : String) :
    pyEndsWith (s ++ "+00:00") "Z" = false := by
  simp [pyEndsWith, String.data_append, List.isPrefixOf]

theorem pyDropLast_append_Z (s : String) : pyDropLast (s ++ "Z") = s := by
  apply String.ext
  simp [pyDropLast, String.data_append]

theorem append_Z_ne_empty (s : String) : s ++ "Z" ≠ "" := by
  intro h
  have h2 := congrArg String.data h
  simp [String.data_append] at h2

theorem append_offset_ne_empty (s : String) : s ++ "+00:00" ≠ "" := by
  intro h
  have h2 := congrArg String.data h
  simp [String.data_append] at h2

theorem zNormalize_append_Z (s : String) :
    zNormalize (s ++ "Z") = s ++ "+00:00" := by
  simp [zNormalize, pyEndsWith_append_Z, pyDropLast_append_Z]

theorem zNormalize_append_offset (s : String) :
    zNormalize (s ++ "+00:00") = s ++ "+00:00" := by
  simp [zNormalize, pyEndsWith_append_offset]

/- ------------------------------------------------------------------ -/
/- Lemmas about the row builder.                                       -/
/- ------------------------------------------------------------------ -/

theorem build_rows_loop_fst (fromiso : String → Option PyDatetime) (loc : Int)
    (mods : List Mod) (cats : List String) :
    (build_rows_loop fromiso loc mods cats).1 =
      mods.map (build_row fromiso loc) := by
  induction mods generalizing cats with
  | nil => rfl
  | cons m rest ih => simp [build_rows_loop, ih]

theorem build_rows_fst (fromiso : String → Option PyDatetime) (loc : Int)
    (mods : List Mod) (mods_dir : String) :
    (build_rows fromiso loc mods mods_dir).1 =
      mods.map (build_row fromiso loc) :=
  build_rows_loop_fst fromiso loc mods []

theorem write_excel_dataRows (rows : List Row) (catsEnum : List String)
    (sheet_name : String) :
    (write_excel rows catsEnum sheet_name).dataRows =
      (List.enumFrom 2 rows).map fun p => dataRowCells p.2 p.1 := rfl

theorem write_excel_dataRows_length (rows : List Row) (catsEnum : List String)
    (sheet_name : String) :
    (write_excel rows catsEnum sheet_name).dataRows.length = rows.length := by
  simp [write_excel_dataRows, List.enumFrom_length]

theorem write_excel_dataRows_getElem (rows : List Row) (catsEnum : List String)
    (sheet_name : String) (i : Nat) (h : i < rows.length) :
    (write_excel rows catsEnum sheet_name).dataRows[i]? =
      some (dataRowCells rows[i] (2 + i)) := by
  have hlen : i < (write_excel rows catsEnum sheet_name).dataRows.length := by
    rw [write_excel_dataRows_length]; exact h
  rw [List.getElem?_eq_getElem hlen]
  simp [write_excel_dataRows, List.getElem_enumFrom]

/-- C1: every mod entry yields exactly one row record, in input order, and
`write_excel` writes exactly one data row per record, in that order: no
record is dropped or merged. -/
theorem rows_one_per_mod_in_order (fromiso : String → Option PyDatetime)
    (loc : Int) (mods : List Mod) (mods_dir sheet_name : String)
    (catsEnum : List String) :
    (build_rows fromiso loc mods mods_dir).1.length = mods.length ∧
    (∀ i (h : i < mods.length),
       (build_rows fromiso loc mods mods_dir).1[i]? =
         some (build_row fromiso loc mods[i])) ∧
    (write_excel (build_rows fromiso loc mods mods_dir).1 catsEnum
        sheet_name).dataRows.length = mods.length ∧
    (∀ i (h : i < mods.length),
       (write_excel (build_rows fromiso loc mods mods_dir).1 catsEnum
           sheet_name).dataRows[i]? =
         some (dataRowCells (build_row fromiso loc mods[i]) (2 + i))) := by
  rw [build_rows_fst]
  refine ⟨List.length_map .., ?_, ?_, ?_⟩
  · intro i h
    rw [List.getElem?_eq_getElem (by simpa using h)]
    simp
  · simp [write_excel_dataRows_length]
  · intro i h
    rw [write_excel_dataRows_getElem _ _ _ i (by simpa using h)]
    simp

/-- C1 witness at a concrete two-mod input. -/
theorem rows_one_per_mod_in_order_witness :
    (0 < 2) ∧
    ((build_rows noParse 0 (sameKeyMods ++ twoTagMods) "").1[0]? =
      some (build_row noParse 0 ((sameKeyMods ++ twoTagMods).get ⟨0, by decide⟩)))
    := by
  have h := rows_one_per_mod_in_order noParse 0 (sameKeyMods ++ twoTagMods) ""
    "Mods" []
  refine ⟨by decide, ?_⟩
  simpa using h.2.1 0 (by decide)

/-- C2: a trailing literal `"Z"` is treated as the UTC offset `"+00:00"`
before parsing; a parsed value carrying an offset is converted to the local
zone and stored zone-naive; on parse failure the Updated-At value is the raw
string verbatim, and the empty string when the field is absent. -/
theorem updated_timestamp_normalization
    (fromiso : String → Option PyDatetime) (loc : Int) :
    (∀ s : String, iso_to_datetime fromiso loc (some (s ++ "Z")) =
        iso_to_datetime fromiso loc (some (s ++ "+00:00"))) ∧
    (∀ (v : String) (c off : Int), v ≠ "" →
        fromiso (zNormalize v) = some ⟨c, some off⟩ →
        iso_to_datetime fromiso loc (some v) = some ⟨c - off + loc, none⟩) ∧
    (∀ v : String, fromiso (zNormalize v) = none →
        pyUpdatedValue fromiso loc (some v) = .str v) ∧
    (pyUpdatedValue fromiso loc none = .str "") := by
  refine ⟨?_, ?_, ?_, rfl⟩
  · intro s
    simp only [iso_to_datetime, if_neg (append_Z_ne_empty s),
      if_neg (append_offset_ne_empty s), zNormalize_append_Z,
      zNormalize_append_offset]
  · intro v c off hv hp
    simp [iso_to_datetime, hv, hp]
  · intro v hp
    by_cases hv : v = ""
    · subst hv
      simp [pyUpdatedValue, iso_to_datetime, pyOrStr]
    · simp [pyUpdatedValue, iso_to_datetime, hv, hp, pyOrStr]

/-- C2 witness: a concrete aware timestamp ending in `"Z"` converted to the
local zone (offset 60) and stripped of its zone, and a concrete unparseable
string surviving verbatim. -/
theorem updated_timestamp_normalization_witness :
    (("2024-03-01T10:00:00Z" : String) ≠ "") ∧
    iso_to_datetime isoStub 60 (some "2024-03-01T10:00:00Z") =
      some ⟨160, none⟩ ∧
    pyUpdatedValue isoStub 60 (some "not-a-date") = .str "not-a-date" := by
  have h := updated_timestamp_normalization isoStub 60
  refine ⟨by decide, ?_, ?_⟩
  · have h2 := h.2.1 "2024-03-01T10:00:00Z" 100 0 (by decide) (by decide)
    simpa using h2
  · exact h.2.2.1 "not-a-date" (by decide)

/-- C3: whatever the timestamp parser does, every mod still yields its row,
and a failed parse falls back to the raw string (or `""`): timestamp parsing
is recovered locally.  Malformed JSON, by contrast, propagates out of `main`
unrecovered. -/
theorem malformed_timestamp_recovered_locally :
    (∀ (fromiso : String → Option PyDatetime) (loc : Int) (mods : List Mod)
        (dir : String),
       (build_rows fromiso loc mods dir).1.length = mods.length) ∧
    (∀ (fromiso : String → Option PyDatetime) (loc : Int)
        (raw : Option String),
       iso_to_datetime fromiso loc raw = none →
       pyUpdatedValue fromiso loc raw = .str (pyOrStr raw "")) ∧
    (∀ (path : String) (env : Env) (fromiso : String → Option PyDatetime)
        (loc : Int) (enum : List String → List String),
       env.isFile = true → env.parsed = none →
       main path env fromiso loc enum =
         .error "json.load raised: malformed JSON") := by
  refine ⟨?_, ?_, ?_⟩
  · intro fromiso loc mods dir
    rw [build_rows_fst]
    exact List.length_map ..
  · intro fromiso loc raw h
    simp [pyUpdatedValue, h]
  · intro path env fromiso loc enum hfile hparse
    simp [main, hfile, hparse]

/-- C3 witness: a concrete failing parse recovered into the raw string, and a
concrete malformed-JSON run propagating an error. -/
theorem malformed_timestamp_recovered_locally_witness :
    pyUpdatedValue noParse 0 (some "not-a-date") = .str "not-a-date" ∧
    main "p" badJsonEnv noParse 0 id =
      .error "json.load raised: malformed JSON" := by
  refine ⟨?_, ?_⟩
  · have h := malformed_timestamp_recovered_locally.2.1 noParse 0
      (some "not-a-date") (by decide)
    simpa [pyOrStr] using h
  · exact malformed_timestamp_recovered_locally.2.2 "p" badJsonEnv noParse 0
      id rfl rfl

/-- C4: a mod entry without an enrichment project produces the fixed fallback
description, empty detail and category, link label `"No Modrinth"`, no link
URL, and none of its cells carries a hyperlink. -/
theorem fallback_row_without_enrichment
    (fromiso : String → Option PyDatetime) (loc : Int) (mod : Mod)
    (h : mod.modrinthProject = none) (rowIdx : Nat) :
    (build_row fromiso loc mod).description =
        "No Modrinth source available (untrusted source)" ∧
    (build_row fromiso loc mod).detail = "" ∧
    (build_row fromiso loc mod).category = "" ∧
    (build_row fromiso loc mod).links = "No Modrinth" ∧
    (build_row fromiso loc mod).linksUrl = none ∧
    (∀ c ∈ dataRowCells (build_row fromiso loc mod) rowIdx,
       c.hyperlink = none) := by
  have hrow : (build_row fromiso loc mod).linksUrl = none := by
    simp [build_row, h]
  refine ⟨by simp [build_row, h], by simp [build_row, h], by simp [build_row, h],
    by simp [build_row, h], hrow, ?_⟩
  intro c hc
  simp only [dataRowCells, List.mem_map] at hc
  obtain ⟨p, hp, rfl⟩ := hc
  simp [dataCell, hrow, pyStrTruthy]

/-- C4 witness at a concrete unenriched mod. -/
theorem fallback_row_without_enrichment_witness :
    (build_row noParse 0 plainMod).links = "No Modrinth" := by
  exact (fallback_row_without_enrichment noParse 0 plainMod rfl 2).2.2.2.1

/-- C10: a `modrinthProject` that is present but falsy (e.g. an empty object)
is treated exactly like a missing one: same record as with no enrichment,
with fallback description, label `"No Modrinth"`, no URL, empty detail and
category, and an empty updated value. -/
theorem falsy_project_treated_as_missing
    (fromiso : String → Option PyDatetime) (loc : Int) (mod : Mod)
    (p : Project) (h : mod.modrinthProject = some p)
    (ht : p.truthy = false) :
    build_row fromiso loc mod =
      build_row fromiso loc { mod with modrinthProject := none } ∧
    (build_row fromiso loc mod).description =
        "No Modrinth source available (untrusted source)" ∧
    (build_row fromiso loc mod).links = "No Modrinth" ∧
    (build_row fromiso loc mod).linksUrl = none ∧
    (build_row fromiso loc mod).detail = "" ∧
    (build_row fromiso loc mod).category = "" ∧
    (build_row fromiso loc mod).updatedAt = .str "" := by
  refine ⟨?_, ?_, ?_, ?_, ?_, ?_, ?_⟩ <;>
    simp [build_row, h, ht, mod_display_name, pyUpdatedValue, iso_to_datetime,
      pyOrStr]

/-- C10 witness at a concrete mod with a falsy (empty-object) project. -/
theorem falsy_project_treated_as_missing_witness :
    build_row noParse 0 emptyProjMod = build_row noParse 0 plainMod := by
  have h := (falsy_project_treated_as_missing noParse 0 emptyProjMod
    _ rfl rfl).1
  exact h

theorem mem_addCat (cats : List String) (c x : String) :
    x ∈ addCat cats c ↔ x ∈ cats ∨ x = c := by
  unfold addCat
  split_ifs with hc
  · constructor
    · exact Or.inl
    · rintro (hx | rfl)
      · exact hx
      · exact hc
  · simp

theorem nodup_addCat (cats : List String) (c : String) (h : cats.Nodup) :
    (addCat cats c).Nodup := by
  unfold addCat
  split_ifs with hc
  · exact h
  · simp [List.nodup_append, h, hc]

theorem mem_foldl_addCat (ts : List String) (cats : List String) (x : String) :
    x ∈ ts.foldl addCat cats ↔ x ∈ cats ∨ x ∈ ts := by
  induction ts generalizing cats with
  | nil => simp
  | cons t ts ih =>
    simp only [List.foldl_cons, ih, mem_addCat, List.mem_cons]
    tauto

theorem nodup_foldl_addCat (ts : List String) (cats : List String)
    (h : cats.Nodup) : (ts.foldl addCat cats).Nodup := by
  induction ts generalizing cats with
  | nil => exact h
  | cons t ts ih => exact ih _ (nodup_addCat _ _ h)

theorem mem_build_rows_loop_snd (fromiso : String → Option PyDatetime)
    (loc : Int) (mods : List Mod) (cats : List String) (x : String) :
    x ∈ (build_rows_loop fromiso loc mods cats).2 ↔
      x ∈ cats ∨ ∃ m ∈ mods, x ∈ mod_categories m := by
  induction mods generalizing cats with
  | nil => simp [build_rows_loop]
  | cons m rest ih =>
    simp only [build_rows_loop, ih, mem_foldl_addCat, List.mem_cons]
    constructor
    · rintro ((hx | hx) | ⟨m2, hm2, hx⟩)
      · exact Or.inl hx
      · exact Or.inr ⟨m, Or.inl rfl, hx⟩
      · exact Or.inr ⟨m2, Or.inr hm2, hx⟩
    · rintro (hx | ⟨m2, (rfl | hm2), hx⟩)
      · exact Or.inl (Or.inl hx)
      · exact Or.inl (Or.inr hx)
      · exact Or.inr ⟨m2, hm2, hx⟩

theorem mem_build_rows_snd (fromiso : String → Option PyDatetime) (loc : Int)
    (mods : List Mod) (dir : String) (x : String) :
    x ∈ (build_rows fromiso loc mods dir).2 ↔
      ∃ m ∈ mods, x ∈ mod_categories m := by
  have h := mem_build_rows_loop_snd fromiso loc mods [] x
  simpa [build_rows] using h

theorem nodup_build_rows_loop_snd (fromiso : String → Option PyDatetime)
    (loc : Int) (mods : List Mod) (cats : List String) (h : cats.Nodup) :
    (build_rows_loop fromiso loc mods cats).2.Nodup := by
  induction mods generalizing cats with
  | nil => exact h
  | cons m rest ih =>
    simpa [build_rows_loop] using ih _ (nodup_foldl_addCat _ _ h)

theorem nodup_build_rows_snd (fromiso : String → Option PyDatetime)
    (loc : Int) (mods : List Mod) (dir : String) :
    (build_rows fromiso loc mods dir).2.Nodup :=
  nodup_build_rows_loop_snd fromiso loc mods [] List.nodup_nil

theorem mem_truthyTags (l : List (Option String)) (t : String) :
    t ∈ truthyTags l ↔ some t ∈ l ∧ t ≠ "" := by
  simp only [truthyTags, List.mem_filterMap]
  constructor
  · rintro ⟨a, ha, hfa⟩
    cases a with
    | none => simp at hfa
    | some s =>
      by_cases hs : s = ""
      · simp [hs] at hfa
      · simp only [if_neg hs, Option.some.injEq] at hfa
        subst hfa
        exact ⟨ha, hs⟩
  · rintro ⟨hmem, hne⟩
    exact ⟨some t, hmem, by simp [hne]⟩

theorem mod_categories_of_enriched (mod : Mod) (p : Project)
    (hp : mod.modrinthProject = some p) (ht : p.truthy = true) :
    mod_categories mod = truthyTags (p.categories.getD []) := by
  simp [mod_categories, hp, ht]

/-- C5: for an enriched mod, null/empty tags are skipped, the surviving tags
are joined with `";"` into the row's category string, and each surviving tag
occurs in the final category set exactly once, however often it repeats. -/
theorem categories_joined_and_deduplicated
    (fromiso : String → Option PyDatetime) (loc : Int) (mods : List Mod)
    (dir : String) (mod : Mod) (p : Project) (hm : mod ∈ mods)
    (hp : mod.modrinthProject = some p) (ht : p.truthy = true) :
    (build_row fromiso loc mod).category =
      String.intercalate ";" (truthyTags (p.categories.getD [])) ∧
    (∀ (l : List (Option String)) (t : String),
       t ∈ truthyTags l ↔ some t ∈ l ∧ t ≠ "") ∧
    (∀ t ∈ truthyTags (p.categories.getD []),
       List.count t (build_rows fromiso loc mods dir).2 = 1) := by
  refine ⟨by simp [build_row, hp, ht], mem_truthyTags, ?_⟩
  intro t htag
  apply List.count_eq_one_of_mem (nodup_build_rows_snd fromiso loc mods dir)
  rw [mem_build_rows_snd]
  exact ⟨mod, hm, by rwa [mod_categories_of_enriched mod p hp ht]⟩

/-- C5 witness at a concrete enriched mod with tags `"b"` and `"a"`. -/
theorem categories_joined_and_deduplicated_witness :
    List.count "a" (build_rows noParse 0 twoTagMods "").2 = 1 := by
  have h := categories_joined_and_deduplicated noParse 0 twoTagMods ""
    (twoTagMods.get ⟨0, by decide⟩) _ (by decide) rfl rfl
  exact h.2.2 "a" (by decide)

theorem charDataLe_cons_iff (a b : Char) (as bs : List Char) :
    charDataLe (a :: as) (b :: bs) = true ↔
      a.toNat < b.toNat ∨ (a.toNat = b.toNat ∧ charDataLe as bs = true) := by
  simp only [charDataLe]
  split_ifs with h1 h2
  · simp [h1]
  · simp only [Bool.false_eq_true, false_iff]
    rintro (h | ⟨h, -⟩) <;> omega
  · have heq : a.toNat = b.toNat := by omega
    simp [heq]

theorem charDataLe_total : ∀ (as bs : List Char),
    charDataLe as bs = true ∨ charDataLe bs as = true
  | [], _ => Or.inl rfl
  | _ :: _, [] => Or.inr rfl
  | a :: as, b :: bs => by
    rcases Nat.lt_trichotomy a.toNat b.toNat with h | h | h
    · exact Or.inl ((charDataLe_cons_iff ..).mpr (Or.inl h))
    · rcases charDataLe_total as bs with ih | ih
      · exact Or.inl ((charDataLe_cons_iff ..).mpr (Or.inr ⟨h, ih⟩))
      · exact Or.inr ((charDataLe_cons_iff ..).mpr (Or.inr ⟨h.symm, ih⟩))
    · exact Or.inr ((charDataLe_cons_iff ..).mpr (Or.inl h))

theorem charDataLe_trans : ∀ {as bs cs : List Char},
    charDataLe as bs = true → charDataLe bs cs = true →
      charDataLe as cs = true
  | [], _, _, _, _ => rfl
  | _ :: _, [], _, h, _ => by simp [charDataLe] at h
  | _ :: _, _ :: _, [], _, h => by simp [charDataLe] at h
  | a :: as, b :: bs, c :: cs, h1, h2 => by
    rw [charDataLe_cons_iff] at h1 h2 ⊢
    rcases h1 with h1 | ⟨h1e, h1r⟩ <;> rcases h2 with h2 | ⟨h2e, h2r⟩
    · exact Or.inl (h1.trans h2)
    · exact Or.inl (by omega)
    · exact Or.inl (by omega)
    · exact Or.inr ⟨by omega, charDataLe_trans h1r h2r⟩

theorem charDataLe_antisymm : ∀ {as bs : List Char},
    charDataLe as bs = true → charDataLe bs as = true → as = bs
  | [], [], _, _ => rfl
  | [], _ :: _, _, h => by simp [charDataLe] at h
  | _ :: _, [], h, _ => by simp [charDataLe] at h
  | a :: as, b :: bs, h1, h2 => by
    rw [charDataLe_cons_iff] at h1 h2
    rcases h1 with h1 | ⟨h1e, h1r⟩ <;> rcases h2 with h2 | ⟨h2e, h2r⟩
    · exact absurd h2 (by omega)
    · exact absurd h2e (by omega)
    · exact absurd h2 (by omega)
    · have hval : a.val.toNat = b.val.toNat := h1e
      have hc : a = b := Char.eq_of_val_eq (UInt32.toNat.inj hval)
      rw [hc, charDataLe_antisymm h1r h2r]

theorem keyLe_total_thm (a b : String) : keyLe a b ∨ keyLe b a :=
  charDataLe_total _ _

theorem keyLe_trans_thm {a b c : String} (h1 : keyLe a b) (h2 : keyLe b c) :
    keyLe a c :=
  charDataLe_trans h1 h2

theorem pyLower_eq_of_keyLe_both {a b : String} (h1 : keyLe a b)
    (h2 : keyLe b a) : pyLower a = pyLower b :=
  String.ext (charDataLe_antisymm h1 h2)

theorem pySorted_perm (xs : List String) : (pySorted xs).Perm xs :=
  List.perm_insertionSort keyLe xs

theorem pySorted_sorted (xs : List String) :
    List.Sorted keyLe (pySorted xs) := by
  haveI : IsTotal String keyLe := ⟨keyLe_total_thm⟩
  haveI : IsTrans String keyLe := ⟨fun _ _ _ => keyLe_trans_thm⟩
  exact List.sorted_insertionSort keyLe xs

theorem sorted_keyLt_of_nodup_keys {l : List String}
    (hs : List.Sorted keyLe l) (hn : (l.map pyLower).Nodup) :
    List.Sorted keyLt l := by
  have hp : List.Pairwise (fun a b : String => pyLower a ≠ pyLower b) l :=
    List.pairwise_map.mp hn
  exact hs.and hp

theorem pySorted_eq_of_perm {e1 e2 : List String} (h : e1.Perm e2)
    (hn : (e1.map pyLower).Nodup) : pySorted e1 = pySorted e2 := by
  haveI : IsAntisymm String keyLt := ⟨fun a b h1 h2 =>
    absurd (pyLower_eq_of_keyLe_both h1.1 h2.1) h1.2⟩
  have hperm : (pySorted e1).Perm (pySorted e2) :=
    (pySorted_perm e1).trans (h.trans (pySorted_perm e2).symm)
  have hn1 : ((pySorted e1).map pyLower).Nodup :=
    (((pySorted_perm e1).map pyLower).symm.nodup) hn
  have hn2 : ((pySorted e2).map pyLower).Nodup :=
    (hperm.map pyLower).nodup hn1
  exact List.eq_of_perm_of_sorted hperm
    (sorted_keyLt_of_nodup_keys (pySorted_sorted e1) hn1)
    (sorted_keyLt_of_nodup_keys (pySorted_sorted e2) hn2)

theorem write_excel_catCells (rows : List Row) (catsEnum : List String)
    (sheet_name : String) :
    (write_excel rows catsEnum sheet_name).catCells =
      (List.enumFrom 2 (pySorted catsEnum)).map fun p =>
        plainCell p.1 CATEGORIES_COL_INDEX (.str p.2) := rfl

/-- C6: the category side list has header cell `"Categorias"` at row 1 of
column 11, and below it exactly one cell per distinct category, one per row,
sorted ascending ignoring letter case. -/
theorem category_side_list_sorted (fromiso : String → Option PyDatetime)
    (loc : Int) (mods : List Mod) (dir sheet_name : String)
    (enum : List String)
    (hperm : enum.Perm (build_rows fromiso loc mods dir).2) :
    (write_excel (build_rows fromiso loc mods dir).1 enum
        sheet_name).catHeader =
      plainCell 1 CATEGORIES_COL_INDEX (.str "Categorias") ∧
    CATEGORIES_COL_INDEX = 11 ∧
    List.Sorted keyLe (pySorted enum) ∧
    (pySorted enum).Nodup ∧
    (pySorted enum).Perm (build_rows fromiso loc mods dir).2 ∧
    (write_excel (build_rows fromiso loc mods dir).1 enum
        sheet_name).catCells.length =
      (build_rows fromiso loc mods dir).2.length ∧
    (∀ i (h : i < (pySorted enum).length),
       (write_excel (build_rows fromiso loc mods dir).1 enum
           sheet_name).catCells[i]? =
         some (plainCell (2 + i) CATEGORIES_COL_INDEX
           (.str ((pySorted enum).get ⟨i, h⟩)))) := by
  have hsetperm : (pySorted enum).Perm (build_rows fromiso loc mods dir).2 :=
    (pySorted_perm enum).trans hperm
  refine ⟨rfl, rfl, pySorted_sorted enum, ?_, hsetperm, ?_, ?_⟩
  · exact hsetperm.symm.nodup (nodup_build_rows_snd fromiso loc mods dir)
  · rw [write_excel_catCells]
    simp [List.enumFrom_length, hsetperm.length_eq]
  · intro i h
    rw [write_excel_catCells]
    have hlen : i < ((List.enumFrom 2 (pySorted enum)).map fun p =>
        plainCell p.1 CATEGORIES_COL_INDEX (.str p.2)).length := by
      simpa [List.enumFrom_length] using h
    rw [List.getElem?_eq_getElem hlen]
    simp [List.getElem_enumFrom]

/-- C6 witness at the concrete two-tag input. -/
theorem category_side_list_sorted_witness :
    (["a", "b"] : List String).Perm (build_rows noParse 0 twoTagMods "").2 ∧
    (write_excel (build_rows noParse 0 twoTagMods "").1 ["a", "b"]
        "Mods").catCells.length = 2 := by
  have h := category_side_list_sorted noParse 0 twoTagMods "" "Mods"
    ["a", "b"] (by decide)
  refine ⟨by decide, ?_⟩
  rw [h.2.2.2.2.2.1]
  decide

/-- C7: with an empty row-record sequence, no table region is created, the
header row alone is written, and the category side-listing logic still runs
(writing nothing below `"Categorias"` when the set is empty). -/
theorem empty_rows_header_and_categories (enum : List String)
    (sheet_name : String) :
    (write_excel [] enum sheet_name).tableRef = none ∧
    (write_excel [] enum sheet_name).tableStyle = none ∧
    (write_excel [] enum sheet_name).dataRows = [] ∧
    (write_excel [] enum sheet_name).headerRow = headerCells ∧
    (∀ i (h : i < HEADERS.length),
       headerCells[i]? = some (plainCell 1 (1 + i)
         (.str (HEADERS.get ⟨i, h⟩)))) ∧
    (write_excel [] enum sheet_name).catHeader =
      plainCell 1 CATEGORIES_COL_INDEX (.str "Categorias") ∧
    (enum = [] → (write_excel [] enum sheet_name).catCells = []) := by
  refine ⟨rfl, rfl, rfl, rfl, ?_, rfl, ?_⟩
  · intro i h
    have hlen : i < headerCells.length := by
      simpa [headerCells, List.enumFrom_length] using h
    rw [List.getElem?_eq_getElem hlen]
    simp [headerCells, List.getElem_enumFrom]
  · rintro rfl
    rfl

/-- C7 witness: the fully concrete empty run. -/
theorem empty_rows_header_and_categories_witness :
    (write_excel [] [] "Mods").tableRef = none ∧
    (write_excel [] [] "Mods").catCells = [] := by
  have h := empty_rows_header_and_categories [] "Mods"
  exact ⟨h.1, h.2.2.2.2.2.2 rfl⟩

/-- C8: a missing input path is detected before parsing (the outcome does not
depend on the parse result), reported on the console, given exit status 1
with no output written; a successful run returns exit status 0. -/
theorem exit_codes_and_missing_input (instance_path : String) (env : Env)
    (fromiso : String → Option PyDatetime) (loc : Int)
    (enum : List String → List String) :
    (env.isFile = false →
       main instance_path env fromiso loc enum =
         .ok { exitCode := 1,
               console := ["File not found: " ++ instance_path],
               written := none }) ∧
    (env.isFile = false → ∀ p2 : Option InstanceDesc,
       main instance_path { env with parsed := p2 } fromiso loc enum =
         main instance_path env fromiso loc enum) ∧
    (∀ inst : InstanceDesc, env.isFile = true → env.parsed = some inst →
       ∃ r : MainResult,
         main instance_path env fromiso loc enum = .ok r ∧
         r.exitCode = 0) := by
  refine ⟨?_, ?_, ?_⟩
  · intro h
    simp [main, h]
  · intro h p2
    simp [main, h]
  · intro inst h1 h2
    simp only [main, h1, h2]
    exact ⟨_, rfl, rfl⟩

/-- C8 witness: a concrete missing-file run and a concrete successful run. -/
theorem exit_codes_and_missing_input_witness :
    main "inst.json" missingEnv noParse 0 id =
      .ok { exitCode := 1, console := ["File not found: inst.json"],
            written := none } ∧
    (∃ r : MainResult,
       main "inst.json" okEnv noParse 0 id = .ok r ∧ r.exitCode = 0) := by
  constructor
  · exact (exit_codes_and_missing_input "inst.json" missingEnv noParse 0
      id).1 rfl
  · exact (exit_codes_and_missing_input "inst.json" okEnv noParse 0
      id).2.2 { launcher := none } rfl rfl

/-- C9 as stated is false on the code: Python fixes no iteration order for a
`set`, and when the category set holds two tags that differ only by case,
`sorted(categories, key=str.lower)` leaves their relative order to that
iteration order.  Both lists below enumerate the same category set of the
same concrete input, yet the written cell contents differ. -/
theorem category_order_not_run_deterministic :
    (["A", "a"] : List String).Perm (build_rows noParse 0 sameKeyMods "").2 ∧
    (["a", "A"] : List String).Perm (build_rows noParse 0 sameKeyMods "").2 ∧
    write_excel (build_rows noParse 0 sameKeyMods "").1 ["A", "a"] "Mods" ≠
      write_excel (build_rows noParse 0 sameKeyMods "").1 ["a", "A"] "Mods"
    := by
  refine ⟨by decide, by decide, ?_⟩
  intro h
  have h2 := congrArg Sheet.catCells h
  rw [write_excel_catCells, write_excel_catCells] at h2
  exact absurd h2 (by decide)

/-- C9 amended: every region other than the category side list never depends
on the set iteration order, and the whole output is identical across runs
whenever no two distinct categories share a case-folded form. -/
theorem cell_contents_deterministic_up_to_case_ties
    (fromiso : String → Option PyDatetime) (loc : Int) (mods : List Mod)
    (dir sheet_name : String) :
    (∀ e1 e2 : List String,
       (write_excel (build_rows fromiso loc mods dir).1 e1
           sheet_name).headerRow =
         (write_excel (build_rows fromiso loc mods dir).1 e2
           sheet_name).headerRow ∧
       (write_excel (build_rows fromiso loc mods dir).1 e1
           sheet_name).dataRows =
         (write_excel (build_rows fromiso loc mods dir).1 e2
           sheet_name).dataRows ∧
       (write_excel (build_rows fromiso loc mods dir).1 e1
           sheet_name).tableRef =
         (write_excel (build_rows fromiso loc mods dir).1 e2
           sheet_name).tableRef ∧
       (write_excel (build_rows fromiso loc mods dir).1 e1
           sheet_name).rowHeights =
         (write_excel (build_rows fromiso loc mods dir).1 e2
           sheet_name).rowHeights ∧
       (write_excel (build_rows fromiso loc mods dir).1 e1
           sheet_name).colWidths =
         (write_excel (build_rows fromiso loc mods dir).1 e2
           sheet_name).colWidths ∧
       (write_excel (build_rows fromiso loc mods dir).1 e1
           sheet_name).catHeader =
         (write_excel (build_rows fromiso loc mods dir).1 e2
           sheet_name).catHeader) ∧
    (∀ e1 e2 : List String,
       e1.Perm (build_rows fromiso loc mods dir).2 →
       e2.Perm (build_rows fromiso loc mods dir).2 →
       (((build_rows fromiso loc mods dir).2).map pyLower).Nodup →
       write_excel (build_rows fromiso loc mods dir).1 e1 sheet_name =
         write_excel (build_rows fromiso loc mods dir).1 e2 sheet_name) := by
  refine ⟨fun e1 e2 => ⟨rfl, rfl, rfl, rfl, rfl, rfl⟩, ?_⟩
  intro e1 e2 h1 h2 hd
  have hn1 : (e1.map pyLower).Nodup := ((h1.map pyLower).symm.nodup) hd
  have hs : pySorted e1 = pySorted e2 :=
    pySorted_eq_of_perm (h1.trans h2.symm) hn1
  simp only [write_excel, hs]

/-- C9-amended witness: two enumerations of a case-distinct category set give
identical output. -/
theorem cell_contents_deterministic_up_to_case_ties_witness :
    (["a", "b"] : List String).Perm (build_rows noParse 0 twoTagMods "").2 ∧
    write_excel (build_rows noParse 0 twoTagMods "").1 ["a", "b"] "Mods" =
      write_excel (build_rows noParse 0 twoTagMods "").1 ["b", "a"] "Mods"
    := by
  refine ⟨by decide, ?_⟩
  exact (cell_contents_deterministic_up_to_case_ties noParse 0 twoTagMods ""
    "Mods").2 ["a", "b"] ["b", "a"] (by decide) (by decide) (by decide)

end ModsReport
